import Mathlib

/-!
Video Culler — verification of the clip-analysis and timeline-export core.

Shallow embedding of the TypeScript sources of `ceevents/video-culler`:

* `src/shared/types.ts` — the data model (`VideoFile`, `VideoClip`,
  `AnalysisProgress`, `ExportOptions`);
* `src/main/ipc/analysisHandlers.ts` — the batch analysis loop
  (`setupAnalysisHandlers`), per-video analysis (`analyzeVideo`) and the
  focus scorer (`calculateFocusScore`);
* `src/main/ipc/exportHandlers.ts` — the FCPXML timeline serializer
  (`generateFCPXML`) and the export IPC handler (`setupExportHandlers`).

JavaScript numbers are modelled by `ℚ`; the one place where the source can
produce `NaN` (a `0/0` division on an empty Laplacian-response list) is
modelled by `Option ℚ`, with `none` standing for `NaN`.  Filesystem and IPC
side effects are modelled as explicit effect traces.
-/

namespace VideoCuller

/-! ## Data model (`src/shared/types.ts`) -/

/-- The `VideoFile` record of `src/shared/types.ts`: identity and probed metadata of a
video file on disk. -/
structure VideoFile where
  id : String
  path : String
  filename : String
  directory : String
  duration : ℚ
  width : ℕ
  height : ℕ
  fps : ℚ
  codec : String
  thumbnail : Option String
  deriving Repr, DecidableEq

/-- The `VideoClip extends VideoFile` record of `src/shared/types.ts`: a video file
augmented with scoring and selection state. -/
structure VideoClip extends VideoFile where
  focusScore : ℤ
  compositionScore : Option ℤ
  audioScore : Option ℤ
  overallScore : ℤ
  selected : Bool
  inPoint : ℚ
  outPoint : ℚ
  category : Option String
  deriving Repr, DecidableEq

/-- The `stage` union of `AnalysisProgress` in `src/shared/types.ts`. -/
inductive Stage where
  | scanning
  | extracting
  | analyzing
  | complete
  | error
  deriving Repr, DecidableEq

/-- The `AnalysisProgress` record of `src/shared/types.ts`: a transient progress event. -/
structure AnalysisProgress where
  stage : Stage
  current : ℕ
  total : ℕ
  currentFile : Option String
  message : Option String
  deriving Repr, DecidableEq

/-! ## Focus scorer (`calculateFocusScore` in `src/main/ipc/analysisHandlers.ts`)

The grayscale buffer produced by `sharp(...).grayscale().raw()` is modelled as
a function `data : ℕ → ℕ` giving the sample at each row-major index, together
with `width` and `height`. -/

/-- JavaScript division where the source can divide by zero.  In the source
both divisions have numerator `0` whenever the denominator is `0` (a `reduce`
over an empty list), so a zero denominator yields `0/0 = NaN`, modelled as
`none`. -/
def jsDiv (a b : ℚ) : Option ℚ :=
  if b = 0 then none else some (a / b)

/-- JavaScript `Math.min` on two (non-`NaN`) numbers. -/
def jsMin (a b : ℚ) : ℚ :=
  if a ≤ b then a else b

/-- The loop body of `calculateFocusScore`: for every interior pixel
(`1 ≤ x < width-1`, `1 ≤ y < height-1`, outer loop on `y`, inner on `x`) the
absolute discrete Laplacian response `|-4*center + top + bottom + left + right|`,
collected in loop order.  (`List.range (height-2)` iterates `y-1`; natural
subtraction gives the empty range exactly when the JS loop body never runs.) -/
def laplacianResponses (data : ℕ → ℕ) (width height : ℕ) : List ℚ :=
  (List.range (height - 2)).flatMap fun j =>
    (List.range (width - 2)).map fun i =>
      let x := i + 1
      let y := j + 1
      let center : ℤ := data (y * width + x)
      let top : ℤ := data ((y - 1) * width + x)
      let bottom : ℤ := data ((y + 1) * width + x)
      let left : ℤ := data (y * width + (x - 1))
      let right : ℤ := data (y * width + (x + 1))
      ((-4 * center + top + bottom + left + right).natAbs : ℚ)

/-- The function `calculateFocusScore` of `src/main/ipc/analysisHandlers.ts`: mean and
population variance of the Laplacian responses, then
`Math.min(100, (variance / 100) * 100)`.  The two `reduce(...)/length`
divisions are `jsDiv`; on a buffer with no interior pixels they are `0/0`,
i.e. `NaN` (`none`) — the source has no small-buffer guard. -/
def calculateFocusScore (data : ℕ → ℕ) (width height : ℕ) : Option ℚ := do
  let laplacian := laplacianResponses data width height
  let mean ← jsDiv laplacian.sum laplacian.length
  let variance ← jsDiv ((laplacian.map fun v => (v - mean) ^ 2).sum) laplacian.length
  return jsMin 100 (variance / 100 * 100)

lemma laplacianResponses_length (data : ℕ → ℕ) (width height : ℕ) :
    (laplacianResponses data width height).length = (height - 2) * (width - 2) := by
  simp [laplacianResponses, List.length_flatMap, Function.comp_def]

lemma laplacianResponses_nonneg (data : ℕ → ℕ) (width height : ℕ) :
    ∀ x ∈ laplacianResponses data width height, 0 ≤ x := by
  intro x hx
  simp only [laplacianResponses, List.mem_flatMap, List.mem_map, List.mem_range] at hx
  obtain ⟨j, -, i, -, rfl⟩ := hx
  positivity

lemma laplacianResponses_flat (data : ℕ → ℕ) (width height : ℕ)
    (hflat : ∀ i, data i = data 0) :
    ∀ x ∈ laplacianResponses data width height, x = 0 := by
  intro x hx
  simp only [laplacianResponses, List.mem_flatMap, List.mem_map, List.mem_range] at hx
  obtain ⟨j, -, i, -, rfl⟩ := hx
  simp only [hflat]
  ring_nf

lemma jsMin_100_bounds (v : ℚ) (hv : 0 ≤ v) : 0 ≤ jsMin 100 v ∧ jsMin 100 v ≤ 100 := by
  unfold jsMin
  split
  · norm_num
  · next h => exact ⟨hv, (not_le.mp h).le⟩

/-- C3: for every grayscale buffer with `width ≥ 3` and `height ≥ 3` the
focus-score computation returns a value in `[0, 100]` (the variance of the
Laplacian responses is non-negative and the result is clamped at `100`), and a
perfectly flat buffer (all samples equal) yields variance `0` and score
exactly `0`. -/
theorem calculateFocusScore_range (data : ℕ → ℕ) (width height : ℕ)
    (hw : 3 ≤ width) (hh : 3 ≤ height) :
    (∃ s, calculateFocusScore data width height = some s ∧ 0 ≤ s ∧ s ≤ 100) ∧
    ((∀ i, data i = data 0) → calculateFocusScore data width height = some 0) := by
  set lap := laplacianResponses data width height with hlap
  have hpos : 0 < lap.length := by
    rw [hlap, laplacianResponses_length]
    exact Nat.mul_pos (by omega) (by omega)
  have hne : (lap.length : ℚ) ≠ 0 := by
    exact_mod_cast Nat.pos_iff_ne_zero.mp hpos
  have hvar : 0 ≤ ((lap.map fun v => (v - lap.sum / (lap.length : ℚ)) ^ 2).sum) /
      (lap.length : ℚ) := by
    apply div_nonneg
    · apply List.sum_nonneg
      intro x hx
      simp only [List.mem_map] at hx
      obtain ⟨v, -, rfl⟩ := hx
      positivity
    · positivity
  have hcalc : calculateFocusScore data width height =
      some (jsMin 100 ((((lap.map fun v => (v - lap.sum / (lap.length : ℚ)) ^ 2).sum) /
        (lap.length : ℚ)) / 100 * 100)) := by
    simp [calculateFocusScore, jsDiv, hne, ← hlap]
  constructor
  · refine ⟨_, hcalc, ?_, ?_⟩
    · exact (jsMin_100_bounds _ (by positivity)).1
    · exact (jsMin_100_bounds _ (by positivity)).2
  · intro hflat
    have hz := laplacianResponses_flat data width height hflat
    have hsum : lap.sum = 0 := List.sum_eq_zero hz
    have hsq : (lap.map fun v => (v - lap.sum / (lap.length : ℚ)) ^ 2).sum = 0 := by
      apply List.sum_eq_zero
      intro x hx
      simp only [List.mem_map] at hx
      obtain ⟨v, hv, rfl⟩ := hx
      rw [hz v hv, hsum]
      simp
    rw [hcalc, hsq]
    norm_num [jsMin]

/-- Witness for `calculateFocusScore_range` at a concrete 3×3 flat buffer. -/
theorem calculateFocusScore_range_witness :
    (∃ s, calculateFocusScore (fun _ => 7) 3 3 = some s ∧ 0 ≤ s ∧ s ≤ 100) ∧
    calculateFocusScore (fun _ => 7) 3 3 = some 0 :=
  ⟨(calculateFocusScore_range (fun _ => 7) 3 3 (by decide) (by decide)).1,
   (calculateFocusScore_range (fun _ => 7) 3 3 (by decide) (by decide)).2 fun _ => rfl⟩

/-- C4 (code bug): on a buffer whose width or height is below `3` there are
no interior pixels, so the source divides `0` by `0` (`mean` of an empty
response list) and returns `NaN` (modelled `none`) — it does not fail with an
`InsufficientResolutionError`, and no such error class exists anywhere in the
repository. -/
theorem calculateFocusScore_small_buffer_nan :
    calculateFocusScore (fun _ => 7) 2 2 = none ∧
    calculateFocusScore (fun _ => 9) 100 2 = none ∧
    calculateFocusScore (fun _ => 3) 2 100 = none := by
  refine ⟨?_, ?_, ?_⟩ <;> with_unfolding_all rfl

/-! ## Per-video analysis (`analyzeVideo` in `src/main/ipc/analysisHandlers.ts`)

`analyzeVideo` creates a temporary directory with `mkdtemp`, extracts frames
with ffmpeg, scores each frame, averages, and builds a `VideoClip`.  The
external collaborators are parameters: `extracted` is the outcome of
`extractFrames` (a `DecodeError` or the sorted list of frame paths),
`scoreOf` is `calculateFocusScore` applied to a frame file and `thumbOf` is
`generateThumbnail`.  Directory-level filesystem operations are recorded in an
effect trace. -/

/-- Directory-lifecycle filesystem effects of `analyzeVideo`.  `removeDir` is
the effect a cleanup call (`fs.rm`/`rmdir`) would record; the source never
performs one — nothing in `analysisHandlers.ts` deletes the `mkdtemp`
directory. -/
inductive FsEffect where
  | mkdtempDir
  | removeDir
  deriving Repr, DecidableEq

/-- A per-video analysis failure (caught by the batch loop). -/
inductive AnalyzeError where
  | decode (msg : String)
  | noFrames
  deriving Repr, DecidableEq

/-- JavaScript `Math.round`: round half up (toward `+∞`). -/
def jsRound (q : ℚ) : ℤ := ⌊q + 1 / 2⌋

/-- The function `analyzeVideo` of `src/main/ipc/analysisHandlers.ts`.  Per the source:
`mkdtemp`, then `extractFrames` (its rejection propagates), then per-frame
focus scores, their average, a thumbnail from the frame at index
`Math.floor(frames.length / 2)`, and the resulting clip with
`focusScore = overallScore = Math.round(avgFocusScore)`, `selected = false`,
`inPoint = 0`, `outPoint = video.duration` and all `VideoFile` fields spread.
With zero frames the source fails (the average is `0/0 = NaN` and
`generateThumbnail(frames[0] = undefined)` rejects); that exit is the
`.error .noFrames` branch.  The first component is the trace of
directory-lifecycle effects on every exit path. -/
def analyzeVideo (video : VideoFile) (extracted : Except String (List String))
    (scoreOf : String → ℚ) (thumbOf : String → String) :
    List FsEffect × Except AnalyzeError VideoClip :=
  match extracted with
  | .error e => ([FsEffect.mkdtempDir], .error (.decode e))
  | .ok [] => ([FsEffect.mkdtempDir], .error .noFrames)
  | .ok (f₀ :: rest) =>
    let frames := f₀ :: rest
    let focusScores := frames.map scoreOf
    let avgFocusScore := focusScores.sum / (frames.length : ℚ)
    let middleFrameIndex := frames.length / 2
    let thumbnail := thumbOf (frames.getD middleFrameIndex f₀)
    let overallScore := jsRound avgFocusScore
    ([FsEffect.mkdtempDir],
     .ok { video with
            thumbnail := some thumbnail
            focusScore := overallScore
            compositionScore := none
            audioScore := none
            overallScore := overallScore
            selected := false
            inPoint := 0
            outPoint := video.duration
            category := none })

/-- C5: for every successfully analyzed video with a non-empty frame list,
the produced `VideoClip` has `focusScore = overallScore =` the rounded
arithmetic mean of the per-frame scores, `selected = false`, `inPoint = 0`,
`outPoint = duration`, every `VideoFile` field copied, and its thumbnail
generated from the sampled frame at index `⌊frameCount / 2⌋`. -/
theorem analyzeVideo_clip_fields (video : VideoFile) (frames : List String)
    (scoreOf : String → ℚ) (thumbOf : String → String) (hne : frames ≠ []) :
    ∃ clip, (analyzeVideo video (.ok frames) scoreOf thumbOf).2 = .ok clip ∧
      clip.focusScore = jsRound ((frames.map scoreOf).sum / (frames.length : ℚ)) ∧
      clip.overallScore = clip.focusScore ∧
      clip.selected = false ∧
      clip.inPoint = 0 ∧
      clip.outPoint = video.duration ∧
      clip.id = video.id ∧
      clip.path = video.path ∧
      clip.filename = video.filename ∧
      clip.directory = video.directory ∧
      clip.duration = video.duration ∧
      clip.width = video.width ∧
      clip.height = video.height ∧
      clip.fps = video.fps ∧
      clip.codec = video.codec ∧
      (∃ mid, frames.get? (frames.length / 2) = some mid ∧
        clip.thumbnail = some (thumbOf mid)) := by
  match frames, hne with
  | f₀ :: rest, _ =>
    refine ⟨_, rfl, rfl, rfl, rfl, rfl, rfl, rfl, rfl, rfl, rfl, rfl, rfl, rfl, rfl, rfl,
      ⟨(f₀ :: rest).getD ((f₀ :: rest).length / 2) f₀, ?_, rfl⟩⟩
    have hlt : (f₀ :: rest).length / 2 < (f₀ :: rest).length :=
      Nat.div_lt_self (by simp) (by norm_num)
    rw [List.getD_eq_getElem _ _ hlt, List.get?_eq_getElem?, List.getElem?_eq_getElem hlt]

/-- Witness for `analyzeVideo_clip_fields` on a two-frame video. -/
theorem analyzeVideo_clip_fields_witness :
    ∃ clip,
      (analyzeVideo
        { id := "v1", path := "/w/a.mp4", filename := "a.mp4", directory := "A-Roll",
          duration := 12, width := 1920, height := 1080, fps := 30, codec := "h264",
          thumbnail := none }
        (.ok ["f1.png", "f2.png"]) (fun _ => 40) (fun f => f)).2 = .ok clip ∧
      clip.focusScore = jsRound (((["f1.png", "f2.png"].map fun _ => (40 : ℚ)).sum /
        ((["f1.png", "f2.png"] : List String).length : ℚ))) ∧
      clip.overallScore = clip.focusScore ∧
      clip.selected = false ∧
      clip.inPoint = 0 ∧
      clip.outPoint = 12 ∧
      clip.id = "v1" ∧
      clip.path = "/w/a.mp4" ∧
      clip.filename = "a.mp4" ∧
      clip.directory = "A-Roll" ∧
      clip.duration = 12 ∧
      clip.width = 1920 ∧
      clip.height = 1080 ∧
      clip.fps = 30 ∧
      clip.codec = "h264" ∧
      (∃ mid, (["f1.png", "f2.png"] : List String).get? (2 / 2) = some mid ∧
        clip.thumbnail = some mid) :=
  analyzeVideo_clip_fields
    { id := "v1", path := "/w/a.mp4", filename := "a.mp4", directory := "A-Roll",
      duration := 12, width := 1920, height := 1080, fps := 30, codec := "h264",
      thumbnail := none }
    ["f1.png", "f2.png"] (fun _ => 40) (fun f => f) (by decide)

/-- C6 (code bug): on every exit path of `analyzeVideo` — decode failure,
empty frame list, or success — the effect trace contains the `mkdtemp`
acquisition and nothing else: the temporary directory is never deleted.  The
source imports no removal primitive and `analyzeVideo` has no cleanup on any
path, contradicting the spec's defer/finally discipline. -/
theorem analyzeVideo_never_removes_tempdir (video : VideoFile)
    (extracted : Except String (List String))
    (scoreOf : String → ℚ) (thumbOf : String → String) :
    (analyzeVideo video extracted scoreOf thumbOf).1 = [FsEffect.mkdtempDir] := by
  rcases extracted with e | (- | ⟨f₀, rest⟩) <;> rfl

/-! ## Batch analysis loop (`setupAnalysisHandlers` in
`src/main/ipc/analysisHandlers.ts`)

The `ANALYZE_VIDEOS` handler iterates the input videos with an index, sends a
progress event before analyzing each video, catches any per-video failure
(continuing with the next video), and finally sends a `complete` event.  The
per-video analysis is abstracted as `analyze : VideoFile → Except AnalyzeError
VideoClip`; both the progress events and the analysis attempts are recorded in
order in a trace. -/

/-- One observable step of the batch loop: a progress event sent to the
renderer, or one (awaited) per-video analysis attempt with its outcome. -/
inductive BatchItem where
  | progress (p : AnalysisProgress)
  | attempt (v : VideoFile) (r : Except AnalyzeError VideoClip)
  deriving Repr

/-- The progress event sent before analyzing video `current` of `total`
(`sendProgress` call inside the loop). -/
def analyzingEvent (current total : ℕ) (filename : String) : AnalysisProgress :=
  { stage := .analyzing
    current := current
    total := total
    currentFile := some filename
    message := some ("Analyzing " ++ filename ++ "...") }

/-- The final progress event sent after the loop. -/
def completeEvent (total : ℕ) : AnalysisProgress :=
  { stage := .complete
    current := total
    total := total
    currentFile := none
    message := some "Analysis complete!" }

/-- The `for` loop of the `ANALYZE_VIDEOS` handler, from index `i`: emit the
`analyzing` event for the current video, attempt `analyzeVideo` (a `catch`
skips the video on failure), recurse on the rest, and emit the `complete`
event after the last video. -/
def analyzeLoop (analyze : VideoFile → Except AnalyzeError VideoClip) (total : ℕ) :
    ℕ → List VideoFile → List BatchItem × List VideoClip
  | _, [] => ([BatchItem.progress (completeEvent total)], [])
  | i, video :: rest =>
    let ev := analyzingEvent (i + 1) total video.filename
    let r := analyze video
    let (items, clips) := analyzeLoop analyze total (i + 1) rest
    match r with
    | .ok clip => (BatchItem.progress ev :: BatchItem.attempt video r :: items, clip :: clips)
    | .error _ => (BatchItem.progress ev :: BatchItem.attempt video r :: items, clips)

/-- The `ANALYZE_VIDEOS` handler body: run the loop over all videos with
`total = videoFiles.length`, returning the ordered trace and the
`analyzedClips` result list. -/
def runAnalyzeBatch (analyze : VideoFile → Except AnalyzeError VideoClip)
    (videoFiles : List VideoFile) : List BatchItem × List VideoClip :=
  analyzeLoop analyze videoFiles.length 0 videoFiles

lemma analyzeLoop_spec (analyze : VideoFile → Except AnalyzeError VideoClip)
    (total : ℕ) (vids : List VideoFile) (i : ℕ) :
    analyzeLoop analyze total i vids =
      (((vids.enumFrom i).map fun p =>
          [BatchItem.progress (analyzingEvent (p.1 + 1) total p.2.filename),
           BatchItem.attempt p.2 (analyze p.2)]).flatten
        ++ [BatchItem.progress (completeEvent total)],
       vids.filterMap fun v => (analyze v).toOption) := by
  induction vids generalizing i with
  | nil => simp [analyzeLoop]
  | cons v rest ih =>
    simp only [analyzeLoop, ih (i + 1), List.enumFrom, List.map_cons, List.flatten_cons,
      List.filterMap_cons]
    cases h : analyze v <;> simp [h, Except.toOption]

/-- C1: the batch handler emits, in order, exactly one `analyzing` event
per input video (before that video's attempt, with `current = index + 1` and
`total = N`), catches each per-video failure (the batch is never aborted) and
then emits exactly one `complete` event with `current = total = N`; the result
list is exactly the clips of the successful videos, in input order. -/
theorem runAnalyzeBatch_spec (analyze : VideoFile → Except AnalyzeError VideoClip)
    (vids : List VideoFile) :
    runAnalyzeBatch analyze vids =
      ((vids.enum.map fun p =>
          [BatchItem.progress (analyzingEvent (p.1 + 1) vids.length p.2.filename),
           BatchItem.attempt p.2 (analyze p.2)]).flatten
        ++ [BatchItem.progress (completeEvent vids.length)],
       vids.filterMap fun v => (analyze v).toOption) :=
  analyzeLoop_spec analyze vids.length vids 0

/-! ## FCPXML export (`src/main/ipc/exportHandlers.ts`)

`generateFCPXML` filters the clips to the selected ones, deduplicates their
source paths into a resource table, lays the clips out on a single spine with
a running offset, and interpolates everything into one template literal.  The
`EXPORT_TIMELINE` handler then writes that text to the path chosen in the save
dialog — whatever `options.format` the caller requested. -/

/-- The `format` union of `ExportOptions` in `src/shared/types.ts`. -/
inductive ExportFormat where
  | fcpxml
  | premiere
  | resolve
  deriving Repr, DecidableEq

/-- The `Partial<ExportOptions>` record as received by the `EXPORT_TIMELINE` handler:
every field may be absent. -/
structure ExportOptions where
  format : Option ExportFormat := none
  outputPath : Option String := none
  projectName : Option String := none
  includeAudio : Option Bool := none
  deriving Repr, DecidableEq

/-- Upper-case hexadecimal digit, for percent-encoding. -/
def hexDigit (n : ℕ) : Char :=
  if n < 10 then Char.ofNat (48 + n) else Char.ofNat (55 + n)

/-- The characters JavaScript's `encodeURI` leaves unescaped besides
alphanumerics: `; , / ? : @ & = + $ - _ . ! ~ * ' ( ) #` (the apostrophe,
code 39, is listed by its code point). -/
def uriUnescapedExtra : List Char :=
  [';', ',', '/', '?', ':', '@', '&', '=', '+', '$', '-', '_', '.', '!', '~', '*',
   Char.ofNat 39, '(', ')', '#']

/-- One character under `encodeURI`: kept verbatim if unescaped, otherwise
percent-encoded.  (Modelled for ASCII code points, which is all the theorems
below use; non-ASCII characters percent-encode their UTF-8 bytes instead.) -/
def encodeURIChar (c : Char) : String :=
  if c.isAlphanum || uriUnescapedExtra.contains c then String.singleton c
  else "%" ++ String.singleton (hexDigit (c.toNat / 16)) ++
    String.singleton (hexDigit (c.toNat % 16))

/-- JavaScript `encodeURI`, applied by the source to the clip path in the
`src` attribute.  Note that `&` is in the unescaped set: `encodeURI` performs
no XML escaping. -/
def encodeURI (s : String) : String :=
  String.join (s.data.map encodeURIChar)

/-- Rendering of a number into a template literal.  JavaScript prints numbers
in decimal; every value the theorems below render is integral, where the two
representations agree (non-integral rationals are shown as fractions here). -/
def ratRepr (q : ℚ) : String :=
  if q.den = 1 then toString q.num else toString q.num ++ "/" ++ toString q.den

/-- JavaScript `Array.from(new Set(xs))`: deduplication preserving the first occurrence
of each element, in insertion order. -/
def setDedup : List String → List String
  | [] => []
  | p :: ps => p :: setDedup (ps.filter fun q => q ≠ p)
termination_by l => l.length
decreasing_by
  simp only [List.length_cons]
  exact Nat.lt_succ_of_le (List.length_filter_le _ _)

/-- JavaScript `Array.join` with a newline separator, on the generated line lists. -/
def joinLines : List String → String
  | [] => ""
  | [s] => s
  | s :: rest => s ++ "\n" ++ joinLines rest

/-- One `<asset-clip>` of the spine: the values of the let-bindings of the
`selectedClips.map` callback in `generateFCPXML` at one clip. -/
structure SpineEntry where
  resourceId : ℕ
  offset : ℚ
  name : String
  start : ℚ
  duration : ℚ
  focusScore : ℤ
  deriving Repr, DecidableEq

/-- The `<asset-clip>` template literal of `generateFCPXML`. -/
def renderSpineEntry (e : SpineEntry) : String :=
  "      <asset-clip ref=\"r" ++ toString e.resourceId ++ "\" offset=\"" ++
    ratRepr e.offset ++ "s\" name=\"" ++ e.name ++ "\" start=\"" ++ ratRepr e.start ++
    "s\" duration=\"" ++ ratRepr e.duration ++ "s\">\n        <note>Focus Score: " ++
    toString e.focusScore ++ "</note>\n      </asset-clip>"

/-- The `selectedClips.map` over the mutable `currentOffset` in
`generateFCPXML`: for each clip, `resourceId = uniqueFiles.indexOf(path) + 1`,
`duration = outPoint - inPoint`, `start = inPoint`, `offset` the running sum;
returns the spine entries and the final `currentOffset` (used as the sequence
duration). -/
def spineEntriesFrom (uniqueFiles : List String) :
    ℚ → List VideoClip → List SpineEntry × ℚ
  | currentOffset, [] => ([], currentOffset)
  | currentOffset, clip :: rest =>
    let duration := clip.outPoint - clip.inPoint
    let e : SpineEntry :=
      { resourceId := uniqueFiles.indexOf clip.path + 1
        offset := currentOffset
        name := clip.filename
        start := clip.inPoint
        duration := duration
        focusScore := clip.focusScore }
    let res := spineEntriesFrom uniqueFiles (currentOffset + duration) rest
    (e :: res.1, res.2)

/-- The `uniqueFiles.map` of `generateFCPXML` producing one `<asset>` line per
unique source path.  The `find?` models the source's non-null assertion
(`selectedClips.find(c => c.path === path)!`); every unique path comes from a
selected clip, so the `none` branch is unreachable. -/
def fcpxmlAssetLines (selectedClips : List VideoClip) (uniqueFiles : List String) :
    List String :=
  uniqueFiles.enum.map fun p =>
    match selectedClips.find? fun c => c.path = p.2 with
    | some clip =>
      "    <asset id=\"r" ++ toString (p.1 + 1) ++ "\" src=\"file://" ++
        encodeURI p.2 ++ "\" start=\"0s\" duration=\"" ++ ratRepr clip.duration ++
        "s\" hasVideo=\"1\" format=\"r0\" hasAudio=\"1\"/>"
    | none => ""

/-- The function `generateFCPXML` of `src/main/ipc/exportHandlers.ts`. -/
def generateFCPXML (clips : List VideoClip) (projectName : String) : String :=
  let selectedClips := clips.filter fun c => c.selected
  let uniqueFiles := setDedup (selectedClips.map fun c => c.path)
  let resources := joinLines (fcpxmlAssetLines selectedClips uniqueFiles)
  let laidOut := spineEntriesFrom uniqueFiles 0 selectedClips
  let currentOffset := laidOut.2
  let timelineClips := joinLines (laidOut.1.map renderSpineEntry)
  "<?xml version=\"1.0\" encoding=\"UTF-8\"?>\n<!DOCTYPE fcpxml>\n<fcpxml version=\"1.10\">\n  <resources>\n    <format id=\"r0\" name=\"FFVideoFormat1080p30\" frameDuration=\"100/3000s\" width=\"1920\" height=\"1080\" colorSpace=\"1-1-1 (Rec. 709)\"/>\n"
    ++ resources
    ++ "\n  </resources>\n  <library>\n    <event name=\"Video Culler Import\">\n      <project name=\""
    ++ projectName
    ++ "\">\n        <sequence format=\"r0\" tcStart=\"0s\" tcFormat=\"NDF\" duration=\""
    ++ ratRepr currentOffset
    ++ "s\">\n          <spine>\n"
    ++ timelineClips
    ++ "\n          </spine>\n        </sequence>\n      </project>\n    </event>\n  </library>\n</fcpxml>"

/-- The text written by the `EXPORT_TIMELINE` handler once the save dialog is
confirmed: always `generateFCPXML`, with the project name defaulted, no matter
which `options.format` was requested (the handler never reads it). -/
def exportTimelineText (clips : List VideoClip) (options : ExportOptions) : String :=
  generateFCPXML clips (options.projectName.getD "Video Culler Timeline")

lemma spineEntriesFrom_spec (u : List String) (l : List VideoClip) (off : ℚ) :
    ((spineEntriesFrom u off l).1.length = l.length) ∧
    ((spineEntriesFrom u off l).2 = off + (l.map fun c => c.outPoint - c.inPoint).sum) ∧
    (∀ i, i < l.length →
      ∃ e, (spineEntriesFrom u off l).1.get? i = some e ∧
        e.offset = off + ((l.take i).map fun c => c.outPoint - c.inPoint).sum) := by
  induction l generalizing off with
  | nil => simp [spineEntriesFrom]
  | cons c rest ih =>
    refine ⟨?_, ?_, ?_⟩
    · simp [spineEntriesFrom, (ih (off + (c.outPoint - c.inPoint))).1]
    · have h := (ih (off + (c.outPoint - c.inPoint))).2.1
      simp only [spineEntriesFrom, h, List.map_cons, List.sum_cons]
      ring
    · intro i hi
      cases i with
      | zero =>
        refine ⟨{ resourceId := u.indexOf c.path + 1, offset := off, name := c.filename,
                  start := c.inPoint, duration := c.outPoint - c.inPoint,
                  focusScore := c.focusScore }, ?_, ?_⟩
        · simp [spineEntriesFrom]
        · simp
      | succ n =>
        obtain ⟨e, he, hoff⟩ :=
          (ih (off + (c.outPoint - c.inPoint))).2.2 n (by simpa using hi)
        refine ⟨e, by simpa [spineEntriesFrom] using he, ?_⟩
        rw [hoff]
        simp only [List.take_succ_cons, List.map_cons, List.sum_cons]
        ring

/-- C2: `generateFCPXML` lays the (selected) clips out sequentially on the
single spine: the `i`-th entry's offset is the sum of the prior entries'
rendered durations `outPoint − inPoint` (so there are no gaps and no
overlaps), and the sequence duration interpolated into the `<sequence>`
element is the sum of all rendered durations. -/
theorem generateFCPXML_layout (clips : List VideoClip) (i : ℕ)
    (hi : i < (clips.filter fun c => c.selected).length) :
    ((spineEntriesFrom (setDedup ((clips.filter fun c => c.selected).map fun c => c.path)) 0
        (clips.filter fun c => c.selected)).1.length =
      (clips.filter fun c => c.selected).length) ∧
    ((spineEntriesFrom (setDedup ((clips.filter fun c => c.selected).map fun c => c.path)) 0
        (clips.filter fun c => c.selected)).2 =
      ((clips.filter fun c => c.selected).map fun c => c.outPoint - c.inPoint).sum) ∧
    (∃ e, (spineEntriesFrom (setDedup ((clips.filter fun c => c.selected).map fun c => c.path)) 0
        (clips.filter fun c => c.selected)).1.get? i = some e ∧
      e.offset =
        (((clips.filter fun c => c.selected).take i).map fun c => c.outPoint - c.inPoint).sum) := by
  obtain ⟨h1, h2, h3⟩ :=
    spineEntriesFrom_spec (setDedup ((clips.filter fun c => c.selected).map fun c => c.path))
      (clips.filter fun c => c.selected) 0
  refine ⟨h1, by rw [h2]; ring, ?_⟩
  obtain ⟨e, he, hoff⟩ := h3 i hi
  exact ⟨e, he, by rw [hoff]; ring⟩

/-- The end-to-end scenario of the spec: three selected clips with rendered
durations 5 s, 3 s and 7 s (each with `inPoint = 0`). -/
def clips357 : List VideoClip :=
  [{ id := "1", path := "/w/a.mp4", filename := "a.mp4", directory := "A", duration := 5,
     width := 1920, height := 1080, fps := 30, codec := "h264", thumbnail := none,
     focusScore := 80, compositionScore := none, audioScore := none, overallScore := 80,
     selected := true, inPoint := 0, outPoint := 5, category := none },
   { id := "2", path := "/w/b.mp4", filename := "b.mp4", directory := "A", duration := 3,
     width := 1920, height := 1080, fps := 30, codec := "h264", thumbnail := none,
     focusScore := 60, compositionScore := none, audioScore := none, overallScore := 60,
     selected := true, inPoint := 0, outPoint := 3, category := none },
   { id := "3", path := "/w/c.mp4", filename := "c.mp4", directory := "A", duration := 7,
     width := 1920, height := 1080, fps := 30, codec := "h264", thumbnail := none,
     focusScore := 90, compositionScore := none, audioScore := none, overallScore := 90,
     selected := true, inPoint := 0, outPoint := 7, category := none }]

/-- Witness for `generateFCPXML_layout`: on the 5 s/3 s/7 s scenario the spine
offsets are `0s, 5s, 8s` and the sequence duration is `15s`. -/
theorem generateFCPXML_layout_witness :
    (2 < (clips357.filter fun c => c.selected).length) ∧
    (∃ e, (spineEntriesFrom (setDedup ((clips357.filter fun c => c.selected).map fun c => c.path)) 0
        (clips357.filter fun c => c.selected)).1.get? 2 = some e ∧
      e.offset =
        (((clips357.filter fun c => c.selected).take 2).map fun c => c.outPoint - c.inPoint).sum) ∧
    ((spineEntriesFrom (setDedup ((clips357.filter fun c => c.selected).map fun c => c.path)) 0
        (clips357.filter fun c => c.selected)).1.map fun e => e.offset) = [0, 5, 8] ∧
    (spineEntriesFrom (setDedup ((clips357.filter fun c => c.selected).map fun c => c.path)) 0
        (clips357.filter fun c => c.selected)).2 = 15 :=
  ⟨by with_unfolding_all decide,
   (generateFCPXML_layout clips357 2 (by with_unfolding_all decide)).2.2,
   by with_unfolding_all rfl,
   by with_unfolding_all rfl⟩

lemma spineEntriesFrom_names (u : List String) (l : List VideoClip) (off : ℚ) :
    ((spineEntriesFrom u off l).1.map fun e => e.name) = l.map fun c => c.filename := by
  induction l generalizing off with
  | nil => simp [spineEntriesFrom]
  | cons c rest ih => simp [spineEntriesFrom, ih]

/-- The output of `generateFCPXML` on an input with no selected clip: the complete document
with an empty resource list (beyond the fixed `<format>` descriptor), an empty
spine and sequence duration `0s` — zero `<asset>` and zero `<asset-clip>`
elements.  Written with the same literal/append shape as `generateFCPXML`. -/
def emptySelectionDoc (projectName : String) : String :=
  "<?xml version=\"1.0\" encoding=\"UTF-8\"?>\n<!DOCTYPE fcpxml>\n<fcpxml version=\"1.10\">\n  <resources>\n    <format id=\"r0\" name=\"FFVideoFormat1080p30\" frameDuration=\"100/3000s\" width=\"1920\" height=\"1080\" colorSpace=\"1-1-1 (Rec. 709)\"/>\n"
    ++ ""
    ++ "\n  </resources>\n  <library>\n    <event name=\"Video Culler Import\">\n      <project name=\""
    ++ projectName
    ++ "\">\n        <sequence format=\"r0\" tcStart=\"0s\" tcFormat=\"NDF\" duration=\""
    ++ "0"
    ++ "s\">\n          <spine>\n"
    ++ ""
    ++ "\n          </spine>\n        </sequence>\n      </project>\n    </event>\n  </library>\n</fcpxml>"

/-- C9: only clips whose `selected` flag is true appear in the FCPXML
output — the spine entries are exactly the selected clips in order and the
asset table has one line per unique selected path — and an input in which no
clip is selected serializes to the complete document with zero `<asset>` and
zero `<asset-clip>` elements rather than an error. -/
theorem generateFCPXML_only_selected (clips : List VideoClip) (pn : String) :
    (((spineEntriesFrom (setDedup ((clips.filter fun c => c.selected).map fun c => c.path)) 0
        (clips.filter fun c => c.selected)).1.map fun e => e.name) =
      (clips.filter fun c => c.selected).map fun c => c.filename) ∧
    ((fcpxmlAssetLines (clips.filter fun c => c.selected)
        (setDedup ((clips.filter fun c => c.selected).map fun c => c.path))).length =
      (setDedup ((clips.filter fun c => c.selected).map fun c => c.path)).length) ∧
    ((clips.filter fun c => c.selected) = [] →
      generateFCPXML clips pn = emptySelectionDoc pn) := by
  refine ⟨spineEntriesFrom_names _ _ _, by simp [fcpxmlAssetLines], ?_⟩
  intro h
  simp only [generateFCPXML, h]
  with_unfolding_all rfl

/-- An unselected clip, for the `generateFCPXML_only_selected` witness. -/
def unselectedClip : VideoClip :=
  { id := "1", path := "/w/a.mp4", filename := "a.mp4", directory := "A", duration := 5,
    width := 1920, height := 1080, fps := 30, codec := "h264", thumbnail := none,
    focusScore := 80, compositionScore := none, audioScore := none, overallScore := 80,
    selected := false, inPoint := 0, outPoint := 5, category := none }

/-- Witness for `generateFCPXML_only_selected`: a one-clip input with the clip
unselected serializes to the empty-spine document. -/
theorem generateFCPXML_only_selected_witness :
    ((([unselectedClip].filter fun c => c.selected) = []) ∧
      generateFCPXML [unselectedClip] "P" = emptySelectionDoc "P") :=
  ⟨by with_unfolding_all decide,
   (generateFCPXML_only_selected [unselectedClip] "P").2.2 (by with_unfolding_all decide)⟩

/-- C8 (amended): the `EXPORT_TIMELINE` handler has a single serializer —
for every export request the text written to the chosen path is the FCPXML
document, with the project name defaulted, regardless of which
`options.format` (`fcpxml`, `premiere` or `resolve`) the caller requested; the
handler never reads the `format` field.  (The four-format family of the spec
exists in the repository only as the `engine/export` documentation; its code
is not part of the IPC layer.) -/
theorem exportTimeline_single_serializer (clips : List VideoClip)
    (options : ExportOptions) (f : Option ExportFormat) :
    exportTimelineText clips { options with format := f } =
      generateFCPXML clips (options.projectName.getD "Video Culler Timeline") := rfl

/-- A selected clip used by the export counterexamples. -/
def premiereRequestClip : VideoClip :=
  { id := "1", path := "/w/a.mp4", filename := "a.mp4", directory := "A", duration := 5,
    width := 1920, height := 1080, fps := 30, codec := "h264", thumbnail := none,
    focusScore := 80, compositionScore := none, audioScore := none, overallScore := 80,
    selected := true, inPoint := 0, outPoint := 5, category := none }

/-- C8 counterexample: an export request for the `premiere` format writes
exactly the same text as an `fcpxml` request, and that text carries the
`<!DOCTYPE fcpxml>` declaration — it is FCPXML, not the requested format's
native grammar. -/
theorem exportTimeline_format_ignored_counterexample :
    (exportTimelineText [premiereRequestClip] { format := some ExportFormat.premiere } =
      exportTimelineText [premiereRequestClip] { format := some ExportFormat.fcpxml }) ∧
    ("<!DOCTYPE fcpxml>".data <:+:
      (exportTimelineText [premiereRequestClip]
        { format := some ExportFormat.premiere }).data) :=
  ⟨rfl, by with_unfolding_all decide⟩


/-- Whether a character sequence can start an XML entity or character
reference: a name-start letter (as in `&amp;`) or `#`. -/
def entityStartOk : List Char → Bool
  | [] => false
  | c :: _ => c.isAlpha || c == '#'

/-- A necessary condition for a character sequence to be well-formed XML
text: every `&` must begin an entity or character reference, so it must be
immediately followed by a letter or `#`.  An `&` followed by, e.g., a space
makes the document not well-formed. -/
def ampEscapedOk : List Char → Bool
  | [] => true
  | c :: rest => (c != '&' || entityStartOk rest) && ampEscapedOk rest

lemma str_data_app (a b : String) : (a ++ b).data = a.data ++ b.data := rfl

lemma str_sub_left {s : List Char} {a : String} (hs : s <:+: a.data) (b : String) :
    s <:+: (a ++ b).data := by
  obtain ⟨p, q, hp⟩ := hs
  exact ⟨p, q ++ b.data, by rw [str_data_app, ← hp]; simp⟩

lemma str_sub_right {s : List Char} {b : String} (hs : s <:+: b.data) (a : String) :
    s <:+: (a ++ b).data := by
  obtain ⟨p, q, hp⟩ := hs
  exact ⟨a.data ++ p, q, by rw [str_data_app, ← hp]; simp⟩

lemma mem_joinLines_sub (s : String) : ∀ l, s ∈ l → s.data <:+: (joinLines l).data
  | [], h => absurd h (List.not_mem_nil s)
  | [t], h => by
    rcases List.mem_singleton.mp h with rfl
    exact ⟨[], [], by simp [joinLines]⟩
  | t :: t' :: rest, h => by
    rcases List.mem_cons.mp h with rfl | h'
    · exact str_sub_left (str_sub_left ⟨[], [], by simp⟩ "\n") (joinLines (t' :: rest))
    · exact str_sub_right (mem_joinLines_sub s (t' :: rest) h') (t ++ "\n")

lemma renderSpineEntry_name_sub (e : SpineEntry) :
    e.name.data <:+: (renderSpineEntry e).data := by
  unfold renderSpineEntry
  apply str_sub_left
  apply str_sub_left
  apply str_sub_left
  apply str_sub_left
  apply str_sub_left
  apply str_sub_left
  apply str_sub_left
  exact str_sub_right ⟨[], [], by simp⟩ _

lemma ampEscapedOk_append_bad (c : Char) (hc : (c.isAlpha || c == '#') = false) :
    ∀ p q : List Char, ampEscapedOk (p ++ '&' :: c :: q) = false := by
  intro p q
  induction p with
  | nil => simp [ampEscapedOk, entityStartOk, hc]
  | cons x p ih => simp [ampEscapedOk, ih]

/-- A selected clip whose filename contains a bare ampersand. -/
def ampersandClip : VideoClip :=
  { id := "1", path := "/w/ab.mov", filename := "A & B.mov", directory := "A", duration := 5,
    width := 1920, height := 1080, fps := 30, codec := "h264", thumbnail := none,
    focusScore := 80, compositionScore := none, audioScore := none, overallScore := 80,
    selected := true, inPoint := 0, outPoint := 5, category := none }

/-- C10 (amended): `generateFCPXML` interpolates each selected clip's
filename and the project name into the output verbatim and applies no XML
escaping anywhere; the path is the one exception to "verbatim" — it is
percent-encoded by `encodeURI`, which leaves `&` unchanged and performs no
XML escaping either.  Consequently a filename containing `" & "` yields a
document with a bare ampersand followed by a space — not well-formed XML. -/
theorem generateFCPXML_no_xml_escaping :
    (∀ (clips : List VideoClip) (pn : String) (c : VideoClip),
      c ∈ clips → c.selected = true →
        c.filename.data <:+: (generateFCPXML clips pn).data) ∧
    (∀ (clips : List VideoClip) (pn : String),
      pn.data <:+: (generateFCPXML clips pn).data) ∧
    (ampEscapedOk (generateFCPXML [ampersandClip] "Wedding").data = false) := by
  have hgen : ∀ (clips : List VideoClip) (pn : String) (c : VideoClip),
      c ∈ clips → c.selected = true →
        c.filename.data <:+: (generateFCPXML clips pn).data := by
    intro clips pn c hc hsel
    have hcsel : c ∈ clips.filter fun c => c.selected :=
      List.mem_filter.mpr ⟨hc, by simp [hsel]⟩
    have hname : c.filename ∈
        ((spineEntriesFrom (setDedup ((clips.filter fun c => c.selected).map fun c => c.path)) 0
          (clips.filter fun c => c.selected)).1.map fun e => e.name) := by
      rw [spineEntriesFrom_names]
      exact List.mem_map_of_mem _ hcsel
    obtain ⟨e, he, heq⟩ := List.mem_map.mp hname
    have hrend : (renderSpineEntry e) ∈
        (spineEntriesFrom (setDedup ((clips.filter fun c => c.selected).map fun c => c.path)) 0
          (clips.filter fun c => c.selected)).1.map renderSpineEntry :=
      List.mem_map_of_mem _ he
    have h1 : c.filename.data <:+:
        (joinLines ((spineEntriesFrom
          (setDedup ((clips.filter fun c => c.selected).map fun c => c.path)) 0
          (clips.filter fun c => c.selected)).1.map renderSpineEntry)).data := by
      rw [← heq]
      exact (renderSpineEntry_name_sub e).trans (mem_joinLines_sub _ _ hrend)
    simp only [generateFCPXML]
    exact str_sub_left (str_sub_right h1 _) _
  refine ⟨hgen, ?_, ?_⟩
  · intro clips pn
    simp only [generateFCPXML]
    apply str_sub_left
    apply str_sub_left
    apply str_sub_left
    apply str_sub_left
    apply str_sub_left
    exact str_sub_right ⟨[], [], by simp⟩ _
  · obtain ⟨p, q, hpq⟩ :=
      hgen [ampersandClip] "Wedding" ampersandClip (List.mem_singleton.mpr rfl) rfl
    have hsplit : p ++ ampersandClip.filename.data ++ q =
        (p ++ ['A', ' ']) ++ '&' :: ' ' :: (['B', '.', 'm', 'o', 'v'] ++ q) := by
      show p ++ ['A', ' ', '&', ' ', 'B', '.', 'm', 'o', 'v'] ++ q = _
      simp
    rw [← hpq, hsplit]
    exact ampEscapedOk_append_bad ' ' (by decide) _ _

/-- Witness for `generateFCPXML_no_xml_escaping`: the ampersand filename
appears verbatim in the concrete document. -/
theorem generateFCPXML_no_xml_escaping_witness :
    (ampersandClip ∈ [ampersandClip] ∧ ampersandClip.selected = true) ∧
    "A & B.mov".data <:+: (generateFCPXML [ampersandClip] "Wedding").data :=
  ⟨⟨List.mem_singleton.mpr rfl, rfl⟩,
   generateFCPXML_no_xml_escaping.1 [ampersandClip] "Wedding" ampersandClip
     (List.mem_singleton.mpr rfl) rfl⟩

/-- A selected clip whose path contains a space. -/
def spacePathClip : VideoClip :=
  { id := "1", path := "/w/a b.mov", filename := "f.mov", directory := "A", duration := 5,
    width := 1920, height := 1080, fps := 30, codec := "h264", thumbnail := none,
    focusScore := 80, compositionScore := none, audioScore := none, overallScore := 80,
    selected := true, inPoint := 0, outPoint := 5, category := none }

/-- C10 counterexample: the path is *not* interpolated verbatim.  The only
place the path reaches the document is the `src` attribute, which carries
`encodeURI(path)`; for a path containing a space the interpolated text
differs from the path (the space becomes `%20`), as the full asset line
shows. -/
theorem generateFCPXML_path_not_verbatim :
    encodeURI spacePathClip.path ≠ spacePathClip.path ∧
    fcpxmlAssetLines ([spacePathClip].filter fun c => c.selected)
        (setDedup (([spacePathClip].filter fun c => c.selected).map fun c => c.path)) =
      ["    <asset id=\"r1\" src=\"file:///w/a%20b.mov\" start=\"0s\" duration=\"5s\" hasVideo=\"1\" format=\"r0\" hasAudio=\"1\"/>"] := by
  constructor
  · with_unfolding_all decide
  · with_unfolding_all rfl

/-! ## Timeline-export document validation (modelled from the spec)

The four-format export engine (`engine/export/*.py` — FCPXML, Premiere XML,
DaVinci EDL, DaVinci XML) is present in the repository only through its
documentation (`engine/export` README, `VERSION_COMPATIBILITY.md`,
`COMPLETED.md`); its Python sources are not available.  The validation layer
below is therefore modelled from the spec (§3, §4.5, §7): a
`TimelineDocument` is validated once — frame rate in the supported set,
resolution positive — and only a successfully validated document is written;
a validation failure surfaces before any write is attempted. -/

/-- Modelled from the spec: `TimelineClip`, the export input record
(`path`, `inPoint`/`outPoint` in seconds, optional score and category). -/
structure TimelineClip where
  path : String
  inPoint : ℚ
  outPoint : ℚ
  score : Option ℤ
  category : Option String
  deriving Repr, DecidableEq

/-- Modelled from the spec: a timeline `Marker` (absolute time in seconds,
name, optional color and note). -/
structure Marker where
  time : ℚ
  name : String
  color : Option String
  note : Option String
  deriving Repr, DecidableEq

/-- Modelled from the spec: `ExportSettings` — frame rate and resolution. -/
structure ExportSettings where
  framerate : ℚ
  width : ℕ
  height : ℕ
  deriving Repr, DecidableEq

/-- Modelled from the spec: `TimelineDocument`, the immutable input of a
timeline exporter. -/
structure TimelineDocument where
  clips : List TimelineClip
  markers : List Marker
  settings : ExportSettings
  deriving Repr, DecidableEq

/-- Modelled from the spec: the export-time error taxonomy (§7) relevant to
document validation and writing. -/
inductive TimelineExportError where
  | unsupportedFrameRate
  | invalidResolution
  | exportWrite (msg : String)
  deriving Repr, DecidableEq

/-- The supported frame-rate set of the spec (§3):
23.976, 24, 25, 29.97, 30, 50, 59.94, 60. -/
def supportedFrameRates : List ℚ :=
  [23976 / 1000, 24, 25, 2997 / 100, 30, 50, 5994 / 100, 60]

/-- Modelled from the spec: document validation, performed once per export —
frame rate must be in the supported set (else `UnsupportedFrameRateError`)
and the resolution must be positive. -/
def validateDocument (doc : TimelineDocument) : Except TimelineExportError Unit :=
  if doc.settings.framerate ∈ supportedFrameRates then
    if 0 < doc.settings.width ∧ 0 < doc.settings.height then .ok ()
    else .error .invalidResolution
  else .error .unsupportedFrameRate

/-- A filesystem write performed by an exporter. -/
inductive WriteStep where
  | write (path : String) (content : String)
  deriving Repr, DecidableEq

/-- Modelled from the spec: the shared exporter algorithm shape (§4.5) at the
granularity the claim needs — validate the document first, and only when
validation succeeds render and write the output file, returning the written
path.  The format-specific serializer is the `render` parameter.  The first
component records every write attempted. -/
def exportDocument (doc : TimelineDocument) (render : TimelineDocument → String)
    (outputPath : String) : List WriteStep × Except TimelineExportError String :=
  match validateDocument doc with
  | .error e => ([], .error e)
  | .ok () => ([WriteStep.write outputPath (render doc)], .ok outputPath)

/-- C7 (modelled from the spec; the export engine's sources are not in
`src/`): an export request whose settings carry a frame rate outside the
supported set fails with `UnsupportedFrameRateError` at document-validation
time, and no write is attempted — the write trace is empty, so no output file
is created. -/
theorem exportDocument_unsupported_framerate (doc : TimelineDocument)
    (render : TimelineDocument → String) (outputPath : String)
    (h : doc.settings.framerate ∉ supportedFrameRates) :
    validateDocument doc = .error .unsupportedFrameRate ∧
    exportDocument doc render outputPath =
      ([], .error TimelineExportError.unsupportedFrameRate) := by
  have hv : validateDocument doc = .error .unsupportedFrameRate := by
    simp [validateDocument, h]
  exact ⟨hv, by simp [exportDocument, hv]⟩

/-- Witness for `exportDocument_unsupported_framerate` at 31 fps. -/
theorem exportDocument_unsupported_framerate_witness :
    ((31 : ℚ) ∉ supportedFrameRates) ∧
    exportDocument
        { clips := [], markers := [],
          settings := { framerate := 31, width := 1920, height := 1080 } }
        (fun _ => "") "/tmp/out.fcpxml" =
      ([], .error TimelineExportError.unsupportedFrameRate) :=
  ⟨by with_unfolding_all decide,
   (exportDocument_unsupported_framerate
     { clips := [], markers := [],
       settings := { framerate := 31, width := 1920, height := 1080 } }
     (fun _ => "") "/tmp/out.fcpxml" (by with_unfolding_all decide)).2⟩

end VideoCuller
